import Mathlib

/-!
Verification of the GitHub file-operations MCP server
(`src/mcp/github-file-ops-server.ts`): a shallow embedding of the
`commit_files` and `delete_files` tools and of the six-call GitHub
git-database protocol they drive (read ref, read commit, read local files,
create tree, create commit, update ref), together with theorems checking
the specification's statements about them.

The remote service is modelled as an `Oracle`: a state machine answering
the five kinds of HTTP request the client issues.  The client functions
return the outcome (success result or thrown error), the ordered trace of
remote requests issued, and the final oracle state, so that both
syntactic properties (which calls were made, with which payloads) and
semantic properties (against a faithful git remote) can be proved.
-/

deriving instance DecidableEq for Except

namespace FileOps

/-- Object identifiers (shas) are opaque strings assigned by the remote. -/
abbrev Sha := String

/-- File paths are modelled as lists of characters, mirroring the string
operations (`startsWith`, `slice`, concatenation) the source performs. -/
abbrev Path := List Char

/-- Render a path as a string (used when paths appear in error messages). -/
def pathStr (p : Path) : String := String.mk p

/-- The single-quote character, used by the source's error message templates. -/
def sq : String := String.mk [Char.ofNat 39]

/-- Model of node's `join(REPO_DIR, filePath)` for a relative `filePath`. -/
def joinPath (dir : Path) (p : Path) : Path := dir ++ '/' :: p

/-- Model of JavaScript `target.startsWith(pat)` on paths. -/
def strStartsWith (pat : Path) (target : Path) : Bool :=
  match pat, target with
  | [], _ => true
  | _ :: _, [] => false
  | c :: cs, t :: ts => c = t && strStartsWith cs ts

/-- A tree entry's payload: either inline `content`, or an object
reference where `sha none` is the JSON `"sha": null` deletion marker. -/
inductive EntryPayload
  | content (c : String)
  | sha (s : Option Sha)
deriving Repr, DecidableEq

/-- One entry of a tree-creation request body. -/
structure TreeEntry where
  path : Path
  mode : String
  type : String
  payload : EntryPayload
deriving Repr, DecidableEq

/-- The five kinds of remote request the protocol issues, with the data
each request body carries. -/
inductive Request
  | getRef (branch : String)
  | getCommit (sha : Sha)
  | postTree (baseTree : Sha) (entries : List TreeEntry)
  | postCommit (message : String) (tree : Sha) (parents : List Sha)
  | patchRef (branch : String) (sha : Sha) (force : Bool)
deriving Repr, DecidableEq

/-- Outcome of one HTTP call: parsed success payload, a non-2xx response
with status and body text, or a transport-level failure. -/
inductive HttpResult (α : Type)
  | ok (a : α)
  | httpError (status : Nat) (body : String)
  | transportError (msg : String)
deriving Repr, DecidableEq

/-- Parsed body of a successful commit-creation response. -/
structure NewCommitData where
  sha : Sha
  message : String
  authorName : String
  authorDate : String
deriving Repr, DecidableEq

/-- The remote service: a state machine answering each request kind. -/
structure Oracle (σ : Type) where
  getRef : String → σ → HttpResult Sha × σ
  getCommit : Sha → σ → HttpResult Sha × σ
  postTree : Sha → List TreeEntry → σ → HttpResult Sha × σ
  postCommit : String → Sha → List Sha → σ → HttpResult NewCommitData × σ
  patchRef : String → Sha → Bool → σ → HttpResult Unit × σ

/-- A thrown JavaScript error value: its `message` and optional `stack`. -/
structure Thrown where
  message : String
  stack : Option String := none
deriving Repr, DecidableEq

/-- The `simplifiedResult` returned by a successful `commit_files` call. -/
structure CommitResult where
  commitSha : Sha
  commitMessage : String
  author : String
  date : String
  files : List Path
  treeSha : Sha
deriving Repr, DecidableEq

/-- The `simplifiedResult` returned by a successful `delete_files` call. -/
structure DeleteResult where
  commitSha : Sha
  commitMessage : String
  author : String
  date : String
  deletedFiles : List Path
  treeSha : Sha
deriving Repr, DecidableEq

/-! Error message templates, verbatim from the source. -/

def tokenErrMsg : String := "GITHUB_TOKEN environment variable is required"

def refFailMsg (status : Nat) : String :=
  "Failed to get branch reference: " ++ toString status

def commitFailMsg (status : Nat) : String :=
  "Failed to get base commit: " ++ toString status

def treeFailMsg (status : Nat) (body : String) : String :=
  "Failed to create tree: " ++ toString status ++ " - " ++ body

def newCommitFailMsg (status : Nat) (body : String) : String :=
  "Failed to create commit: " ++ toString status ++ " - " ++ body

def updateRefFailMsg (status : Nat) (body : String) : String :=
  "Failed to update reference: " ++ toString status ++ " - " ++ body

def networkErrMsg (m : String) : String :=
  "Network error during reference update: " ++
    (if m = "" then "Unknown fetch error" else m)

def readFailMsg (fullPath : Path) (reason : String) : String :=
  "Failed to read file " ++ sq ++ pathStr fullPath ++ sq ++ ": " ++ reason

def deletePathErrMsg (p : Path) : String :=
  "Path " ++ sq ++ pathStr p ++ sq ++
    " must be relative to repository root or within current working directory"

/-- Path preprocessing in `commit_files`: strip one leading slash. -/
def stripSlash (p : Path) : Path :=
  if strStartsWith ['/'] p then p.drop 1 else p

/-- Step-3 read location in `commit_files`: a processed path still starting
with a slash is used as-is, otherwise it is joined onto `REPO_DIR`. -/
def fullPathFor (repoDir : Path) (p : Path) : Path :=
  if strStartsWith ['/'] p then p else joinPath repoDir p

/-- Step 3 of `commit_files`: read every file and build its tree entry.
`Promise.all` rejects with the first failed read; this is modelled by
failing on the first unreadable file in list order. -/
def readEntries (repoDir : Path) (fs : Path → Except String String) :
    List Path → Except Thrown (List TreeEntry)
  | [] => .ok []
  | p :: rest =>
    match fs (fullPathFor repoDir p) with
    | .error reason => .error ⟨readFailMsg (fullPathFor repoDir p) reason, none⟩
    | .ok content =>
      match readEntries repoDir fs rest with
      | .error e => .error e
      | .ok es => .ok (⟨p, "100644", "blob", .content content⟩ :: es)

/-- Path preprocessing in `delete_files` for a single path: a leading-slash
path must start with the current working directory, in which case the first
`cwd.length + 1` characters are removed; otherwise it is rejected. -/
def processDeletePath (cwd : Path) (p : Path) : Except Thrown Path :=
  if strStartsWith ['/'] p then
    if strStartsWith cwd p then .ok (p.drop (cwd.length + 1))
    else .error ⟨deletePathErrMsg p, none⟩
  else .ok p

/-- Path preprocessing in `delete_files` over the whole input list: the
`paths.map` callback throws at the first offending path. -/
def processDeletePaths (cwd : Path) : List Path → Except Thrown (List Path)
  | [] => .ok []
  | p :: rest =>
    match processDeletePath cwd p with
    | .error e => .error e
    | .ok q =>
      match processDeletePaths cwd rest with
      | .error e => .error e
      | .ok qs => .ok (q :: qs)

/-- The fallback error text built by the outer catch block when the caught
value's message is unusable: first line of the stack when one is present,
otherwise a fixed unknown-error text. -/
def fallbackFor (op : String) (stack : Option String) : String :=
  match stack with
  | some st =>
    if st = "" then "Failed to " ++ op ++ ": Unknown error occurred"
    else "Failed to " ++ op ++ ": " ++ (st.splitOn "\n").headD ""
  | none => "Failed to " ++ op ++ ": Unknown error occurred"

/-- Guard of the outer catch block's fallback branch: JavaScript falsiness
of the message, or the two degenerate stringifications it checks for. -/
def isFallbackTrigger (m : String) : Bool :=
  m = "" || m = "undefined" || m = "[object Object]"

/-- The outer catch block of both tools: rethrow `new Error(errorMessage)`,
substituting fallback text when the message is empty or degenerate. -/
def normalizeThrown (op : String) (e : Thrown) : Thrown :=
  if isFallbackTrigger e.message then ⟨fallbackFor op e.stack, none⟩
  else ⟨e.message, none⟩

/-- The body of the `commit_files` tool, before the outer catch block:
token check, path preprocessing, then the six-call protocol.  Returns the
outcome, the trace of remote requests issued, and the final remote state. -/
def commitFilesRaw {σ : Type} (token : Option String) (repoDir : Path)
    (branch : String) (fs : Path → Except String String)
    (O : Oracle σ) (s0 : σ) (files : List Path) (message : String) :
    Except Thrown CommitResult × List Request × σ :=
  match token with
  | none => (.error ⟨tokenErrMsg, none⟩, [], s0)
  | some tok =>
    if tok = "" then (.error ⟨tokenErrMsg, none⟩, [], s0) else
    let processedFiles := files.map stripSlash
    match O.getRef branch s0 with
    | (.transportError m, s1) =>
      (.error ⟨m, none⟩, [Request.getRef branch], s1)
    | (.httpError status _, s1) =>
      (.error ⟨refFailMsg status, none⟩, [Request.getRef branch], s1)
    | (.ok baseSha, s1) =>
      match O.getCommit baseSha s1 with
      | (.transportError m, s2) =>
        (.error ⟨m, none⟩,
          [Request.getRef branch, Request.getCommit baseSha], s2)
      | (.httpError status _, s2) =>
        (.error ⟨commitFailMsg status, none⟩,
          [Request.getRef branch, Request.getCommit baseSha], s2)
      | (.ok baseTreeSha, s2) =>
        match readEntries repoDir fs processedFiles with
        | .error e =>
          (.error e, [Request.getRef branch, Request.getCommit baseSha], s2)
        | .ok treeEntries =>
          match O.postTree baseTreeSha treeEntries s2 with
          | (.transportError m, s3) =>
            (.error ⟨m, none⟩,
              [Request.getRef branch, Request.getCommit baseSha,
               Request.postTree baseTreeSha treeEntries], s3)
          | (.httpError status body, s3) =>
            (.error ⟨treeFailMsg status body, none⟩,
              [Request.getRef branch, Request.getCommit baseSha,
               Request.postTree baseTreeSha treeEntries], s3)
          | (.ok treeSha, s3) =>
            match O.postCommit message treeSha [baseSha] s3 with
            | (.transportError m, s4) =>
              (.error ⟨m, none⟩,
                [Request.getRef branch, Request.getCommit baseSha,
                 Request.postTree baseTreeSha treeEntries,
                 Request.postCommit message treeSha [baseSha]], s4)
            | (.httpError status body, s4) =>
              (.error ⟨newCommitFailMsg status body, none⟩,
                [Request.getRef branch, Request.getCommit baseSha,
                 Request.postTree baseTreeSha treeEntries,
                 Request.postCommit message treeSha [baseSha]], s4)
            | (.ok newCommit, s4) =>
              match O.patchRef branch newCommit.sha false s4 with
              | (.transportError m, s5) =>
                (.error ⟨networkErrMsg m, none⟩,
                  [Request.getRef branch, Request.getCommit baseSha,
                   Request.postTree baseTreeSha treeEntries,
                   Request.postCommit message treeSha [baseSha],
                   Request.patchRef branch newCommit.sha false], s5)
              | (.httpError status body, s5) =>
                (.error ⟨updateRefFailMsg status body, none⟩,
                  [Request.getRef branch, Request.getCommit baseSha,
                   Request.postTree baseTreeSha treeEntries,
                   Request.postCommit message treeSha [baseSha],
                   Request.patchRef branch newCommit.sha false], s5)
              | (.ok _, s5) =>
                (.ok ⟨newCommit.sha, newCommit.message, newCommit.authorName,
                      newCommit.authorDate, processedFiles, treeSha⟩,
                  [Request.getRef branch, Request.getCommit baseSha,
                   Request.postTree baseTreeSha treeEntries,
                   Request.postCommit message treeSha [baseSha],
                   Request.patchRef branch newCommit.sha false], s5)

/-- The `commit_files` tool: the raw body wrapped in the outer catch block
that normalizes every thrown error. -/
def commitFiles {σ : Type} (token : Option String) (repoDir : Path)
    (branch : String) (fs : Path → Except String String)
    (O : Oracle σ) (s0 : σ) (files : List Path) (message : String) :
    Except Thrown CommitResult × List Request × σ :=
  match commitFilesRaw token repoDir branch fs O s0 files message with
  | (.error e, tr, s) => (.error (normalizeThrown "commit files" e), tr, s)
  | (.ok r, tr, s) => (.ok r, tr, s)

/-- The tree entry `delete_files` builds for each processed path:
`{path, mode: "100644", type: "blob", sha: null}`. -/
def deleteEntry (p : Path) : TreeEntry := ⟨p, "100644", "blob", .sha none⟩

/-- The body of the `delete_files` tool, before the outer catch block:
token check, path validation, then the five remote calls. -/
def deleteFilesRaw {σ : Type} (token : Option String) (cwd : Path)
    (branch : String) (O : Oracle σ) (s0 : σ)
    (paths : List Path) (message : String) :
    Except Thrown DeleteResult × List Request × σ :=
  match token with
  | none => (.error ⟨tokenErrMsg, none⟩, [], s0)
  | some tok =>
    if tok = "" then (.error ⟨tokenErrMsg, none⟩, [], s0) else
    match processDeletePaths cwd paths with
    | .error e => (.error e, [], s0)
    | .ok processedPaths =>
      match O.getRef branch s0 with
      | (.transportError m, s1) =>
        (.error ⟨m, none⟩, [Request.getRef branch], s1)
      | (.httpError status _, s1) =>
        (.error ⟨refFailMsg status, none⟩, [Request.getRef branch], s1)
      | (.ok baseSha, s1) =>
        match O.getCommit baseSha s1 with
        | (.transportError m, s2) =>
          (.error ⟨m, none⟩,
            [Request.getRef branch, Request.getCommit baseSha], s2)
        | (.httpError status _, s2) =>
          (.error ⟨commitFailMsg status, none⟩,
            [Request.getRef branch, Request.getCommit baseSha], s2)
        | (.ok baseTreeSha, s2) =>
          let treeEntries := processedPaths.map deleteEntry
          match O.postTree baseTreeSha treeEntries s2 with
          | (.transportError m, s3) =>
            (.error ⟨m, none⟩,
              [Request.getRef branch, Request.getCommit baseSha,
               Request.postTree baseTreeSha treeEntries], s3)
          | (.httpError status body, s3) =>
            (.error ⟨treeFailMsg status body, none⟩,
              [Request.getRef branch, Request.getCommit baseSha,
               Request.postTree baseTreeSha treeEntries], s3)
          | (.ok treeSha, s3) =>
            match O.postCommit message treeSha [baseSha] s3 with
            | (.transportError m, s4) =>
              (.error ⟨m, none⟩,
                [Request.getRef branch, Request.getCommit baseSha,
                 Request.postTree baseTreeSha treeEntries,
                 Request.postCommit message treeSha [baseSha]], s4)
            | (.httpError status body, s4) =>
              (.error ⟨newCommitFailMsg status body, none⟩,
                [Request.getRef branch, Request.getCommit baseSha,
                 Request.postTree baseTreeSha treeEntries,
                 Request.postCommit message treeSha [baseSha]], s4)
            | (.ok newCommit, s4) =>
              match O.patchRef branch newCommit.sha false s4 with
              | (.transportError m, s5) =>
                (.error ⟨networkErrMsg m, none⟩,
                  [Request.getRef branch, Request.getCommit baseSha,
                   Request.postTree baseTreeSha treeEntries,
                   Request.postCommit message treeSha [baseSha],
                   Request.patchRef branch newCommit.sha false], s5)
              | (.httpError status body, s5) =>
                (.error ⟨updateRefFailMsg status body, none⟩,
                  [Request.getRef branch, Request.getCommit baseSha,
                   Request.postTree baseTreeSha treeEntries,
                   Request.postCommit message treeSha [baseSha],
                   Request.patchRef branch newCommit.sha false], s5)
              | (.ok _, s5) =>
                (.ok ⟨newCommit.sha, newCommit.message, newCommit.authorName,
                      newCommit.authorDate, processedPaths, treeSha⟩,
                  [Request.getRef branch, Request.getCommit baseSha,
                   Request.postTree baseTreeSha treeEntries,
                   Request.postCommit message treeSha [baseSha],
                   Request.patchRef branch newCommit.sha false], s5)

/-- The `delete_files` tool: the raw body wrapped in the outer catch block
that normalizes every thrown error. -/
def deleteFiles {σ : Type} (token : Option String) (cwd : Path)
    (branch : String) (O : Oracle σ) (s0 : σ)
    (paths : List Path) (message : String) :
    Except Thrown DeleteResult × List Request × σ :=
  match deleteFilesRaw token cwd branch O s0 paths message with
  | (.error e, tr, s) => (.error (normalizeThrown "delete files" e), tr, s)
  | (.ok r, tr, s) => (.ok r, tr, s)

/-! A faithful model of the remote git database: the external service the
spec describes (content-addressed object store plus one mutable branch
reference with fast-forward-only updates). -/

/-- A value stored at a path of a tree: inline content or a blob sha. -/
inductive BlobVal
  | bcontent (c : String)
  | bref (s : Sha)
deriving Repr, DecidableEq

/-- A commit object held by the remote. -/
structure CommitObj where
  tree : Sha
  parents : List Sha
  message : String
deriving Repr, DecidableEq

/-- A materialized tree: a finite map from paths to blob values. -/
abbrev TreeObj := List (Path × BlobVal)

/-- First-match association lookup used by the remote's object stores. -/
def assocFind {α β : Type} [DecidableEq α] : List (α × β) → α → Option β
  | [], _ => none
  | (k, v) :: rest, a => if k = a then some v else assocFind rest a

/-- State of the remote: the branch tip, the commit and tree stores, and a
counter from which fresh shas are minted. -/
structure GitState where
  refSha : Sha
  commits : List (Sha × CommitObj)
  trees : List (Sha × TreeObj)
  counter : Nat
deriving Repr, DecidableEq

/-- Fresh sha generation by the remote. -/
def freshSha (n : Nat) : Sha := "obj" ++ toString n

/-- Remove every binding of a path from a tree. -/
def removePath (t : TreeObj) (p : Path) : TreeObj :=
  t.filter (fun kv => decide (kv.1 ≠ p))

/-- Overlay one request entry onto a tree, per the git tree semantics the
spec describes: inline content or a blob sha sets the path, and a `null`
sha deletes the path. -/
def applyEntry (t : TreeObj) (e : TreeEntry) : TreeObj :=
  match e.payload with
  | .content c => (e.path, .bcontent c) :: removePath t e.path
  | .sha (some s) => (e.path, .bref s) :: removePath t e.path
  | .sha none => removePath t e.path

/-- Overlay a whole entry list onto a base tree. -/
def applyEntries (t : TreeObj) (es : List TreeEntry) : TreeObj :=
  es.foldl applyEntry t

/-- The faithful remote: serves refs, commits and trees out of its stores,
creates fresh tree and commit objects, and accepts a non-`force` reference
update only when it is a fast-forward (the new commit's parent list is
exactly the current tip, which covers every single-commit advance this
client performs). -/
def faithfulOracle : Oracle GitState where
  getRef := fun _branch g => (.ok g.refSha, g)
  getCommit := fun sha g =>
    match assocFind g.commits sha with
    | some c => (.ok c.tree, g)
    | none => (.httpError 404 "Not Found", g)
  postTree := fun baseTree entries g =>
    match assocFind g.trees baseTree with
    | none => (.httpError 422 "base tree not found", g)
    | some t =>
      let sha := freshSha g.counter
      (.ok sha,
        { g with trees := (sha, applyEntries t entries) :: g.trees,
                 counter := g.counter + 1 })
  postCommit := fun message tree parents g =>
    let sha := freshSha g.counter
    (.ok ⟨sha, message, "remote-author", "remote-date"⟩,
      { g with commits := (sha, ⟨tree, parents, message⟩) :: g.commits,
               counter := g.counter + 1 })
  patchRef := fun _branch sha force g =>
    match assocFind g.commits sha with
    | none => (.httpError 422 "object does not exist", g)
    | some c =>
      if force ∨ c.parents = [g.refSha] then (.ok (), { g with refSha := sha })
      else (.httpError 422 "Update is not a fast-forward", g)

/-- The faithful remote with a concurrent writer: immediately after the
client's initial reference read, another writer moves the branch tip to
`otherSha`.  All other behavior is the faithful remote's. -/
def movedRefOracle (otherSha : Sha) : Oracle GitState :=
  { faithfulOracle with
    getRef := fun _branch g => (.ok g.refSha, { g with refSha := otherSha }) }

/-! Observations on request traces. -/

/-- Holds of a trace in which no request is issued after a reference
update: a `patchRef`, if present, is the final request. -/
def noReqAfterPatch : List Request → Bool
  | [] => true
  | Request.patchRef _ _ _ :: rest => rest.isEmpty
  | _ :: rest => noReqAfterPatch rest

/-- Holds of a trace in which every reference update carries `force =
false`. -/
def patchesAllNonForce : List Request → Bool
  | [] => true
  | Request.patchRef _ _ f :: rest => !f && patchesAllNonForce rest
  | _ :: rest => patchesAllNonForce rest

/-- A request that mutates remote state (tree creation, commit creation,
or reference update), as opposed to the two reads. -/
def isWriteRequest : Request → Bool
  | Request.getRef _ => false
  | Request.getCommit _ => false
  | _ => true

/-- A commit input file is unreadable when reading its resolved location
fails. -/
def unreadable (repoDir : Path) (fs : Path → Except String String)
    (p : Path) : Bool :=
  match fs (fullPathFor repoDir p) with
  | .error _ => true
  | .ok _ => false

/-- A deletion path the validation rejects: it begins with a slash but is
not prefixed by the current working directory. -/
def isBadDeletePath (cwd : Path) (p : Path) : Bool :=
  strStartsWith ['/'] p && !(strStartsWith cwd p)

/-- A small concrete remote state: one commit `base1` at the branch tip
whose tree `t0` is empty. -/
def gExample : GitState :=
  ⟨"base1", [("base1", ⟨"t0", [], "init"⟩)], [("t0", [])], 0⟩

/-- A concrete remote that answers the first five calls successfully
(creating tree `t1` and commit `c1`) and rejects the final reference
update with a 500 response. -/
def patchFailOracle : Oracle Unit where
  getRef := fun _ _ => (.ok "base1", ())
  getCommit := fun _ _ => (.ok "t0", ())
  postTree := fun _ _ _ => (.ok "t1", ())
  postCommit := fun m _ _ _ => (.ok ⟨"c1", m, "a", "d"⟩, ())
  patchRef := fun _ _ _ _ => (.httpError 500 "boom", ())

/-- A concrete local filesystem on which only the absolute path `/etc/x`
is readable; everything under the repository root is unreadable. -/
def fsAbs : Path → Except String String := fun p =>
  if p = "/etc/x".data then .ok "SECRET" else .error "ENOENT"

/-! Helper lemmas. -/

theorem commitFiles_snd_eq {σ : Type} (token : Option String) (repoDir : Path)
    (branch : String) (fs : Path → Except String String)
    (O : Oracle σ) (s0 : σ) (files : List Path) (message : String) :
    (commitFiles token repoDir branch fs O s0 files message).2 =
    (commitFilesRaw token repoDir branch fs O s0 files message).2 := by
  unfold commitFiles
  rcases h : commitFilesRaw token repoDir branch fs O s0 files message with ⟨r, tr, s⟩
  cases r <;> simp

theorem deleteFiles_snd_eq {σ : Type} (token : Option String) (cwd : Path)
    (branch : String) (O : Oracle σ) (s0 : σ)
    (paths : List Path) (message : String) :
    (deleteFiles token cwd branch O s0 paths message).2 =
    (deleteFilesRaw token cwd branch O s0 paths message).2 := by
  unfold deleteFiles
  rcases h : deleteFilesRaw token cwd branch O s0 paths message with ⟨r, tr, s⟩
  cases r <;> simp

theorem str_ne_empty_of_length {s : String} (h : s.length ≠ 0) : s ≠ "" := by
  intro hh; subst hh; exact h rfl

theorem fallbackFor_length_pos (op : String) (stack : Option String) :
    0 < (fallbackFor op stack).length := by
  unfold fallbackFor
  have h10 : ("Failed to " : String).length = 10 := by decide
  cases stack with
  | none =>
    simp only [String.length_append, h10]
    omega
  | some st =>
    dsimp only
    split <;>
      · simp only [String.length_append, h10]
        omega

theorem isFallbackTrigger_of_length {m : String} (h : 15 < m.length) :
    isFallbackTrigger m = false := by
  unfold isFallbackTrigger
  have h1 : m ≠ "" := by intro hh; subst hh; exact absurd h (by decide)
  have h2 : m ≠ "undefined" := by intro hh; subst hh; exact absurd h (by decide)
  have h3 : m ≠ "[object Object]" := by
    intro hh; subst hh; exact absurd h (by decide)
  simp [h1, h2, h3]

theorem normalizeThrown_preserve (op : String) (e : Thrown)
    (h : isFallbackTrigger e.message = false) :
    normalizeThrown op e = ⟨e.message, none⟩ := by
  simp [normalizeThrown, h]

theorem updateRefFailMsg_trigger (st : Nat) (b : String) :
    isFallbackTrigger (updateRefFailMsg st b) = false := by
  apply isFallbackTrigger_of_length
  simp only [updateRefFailMsg, String.length_append]
  have h1 : ("Failed to update reference: " : String).length = 28 := by decide
  omega

theorem networkErrMsg_trigger (m : String) :
    isFallbackTrigger (networkErrMsg m) = false := by
  apply isFallbackTrigger_of_length
  unfold networkErrMsg
  split <;>
    · simp only [String.length_append]
      have h1 : ("Network error during reference update: " : String).length = 39 := by
        decide
      omega

theorem deletePathErrMsg_trigger (p : Path) :
    isFallbackTrigger (deletePathErrMsg p) = false := by
  apply isFallbackTrigger_of_length
  simp only [deletePathErrMsg, String.length_append]
  have h1 : ("Path " : String).length = 5 := by decide
  have h2 :
      (" must be relative to repository root or within current working directory" :
        String).length = 72 := by decide
  omega

theorem readFailMsg_trigger (fp : Path) (r : String) :
    isFallbackTrigger (readFailMsg fp r) = false := by
  apply isFallbackTrigger_of_length
  simp only [readFailMsg, String.length_append]
  have h1 : ("Failed to read file " : String).length = 20 := by decide
  omega

theorem normalizeThrown_message_ne_empty (op : String) (e : Thrown) :
    (normalizeThrown op e).message ≠ "" := by
  unfold normalizeThrown
  by_cases h : isFallbackTrigger e.message
  · simp only [h, if_true]
    apply str_ne_empty_of_length
    have := fallbackFor_length_pos op e.stack
    omega
  · simp only [h, Bool.false_eq_true, if_false]
    have hh := h
    unfold isFallbackTrigger at hh
    simp only [Bool.or_eq_true, decide_eq_true_eq, not_or] at hh
    exact hh.1.1

theorem strStartsWith_append_self (c l : Path) :
    strStartsWith c (c ++ l) = true := by
  induction c with
  | nil => rfl
  | cons a cs ih => simp [strStartsWith, ih]

theorem strStartsWith_slash_cons (a : Char) (t : Path) :
    strStartsWith ['/'] (a :: t) = decide (a = '/') := by
  simp [strStartsWith, eq_comm]

theorem readEntries_const (repoDir : Path) (c : String) (ps : List Path) :
    readEntries repoDir (fun _ => .ok c) ps =
      .ok (ps.map fun p => ⟨p, "100644", "blob", .content c⟩) := by
  induction ps with
  | nil => rfl
  | cons p rest ih => simp [readEntries, ih]

theorem readEntries_error_of_find (repoDir : Path)
    (fs : Path → Except String String) (ps : List Path) (pbad : Path)
    (h : ps.find? (unreadable repoDir fs) = some pbad) :
    ∃ reason, fs (fullPathFor repoDir pbad) = .error reason ∧
      readEntries repoDir fs ps =
        .error ⟨readFailMsg (fullPathFor repoDir pbad) reason, none⟩ := by
  induction ps with
  | nil => simp at h
  | cons p rest ih =>
    by_cases hp : unreadable repoDir fs p
    · rw [List.find?_cons_of_pos _ hp] at h
      obtain rfl : p = pbad := by injection h
      unfold unreadable at hp
      cases hfs : fs (fullPathFor repoDir p) with
      | ok c => rw [hfs] at hp; simp at hp
      | error reason =>
        refine ⟨reason, rfl, ?_⟩
        rw [readEntries, hfs]
    · rw [List.find?_cons_of_neg _ (by simpa using hp)] at h
      obtain ⟨reason, hfs, hrest⟩ := ih h
      unfold unreadable at hp
      cases hfs2 : fs (fullPathFor repoDir p) with
      | error r2 => rw [hfs2] at hp; simp at hp
      | ok c =>
        refine ⟨reason, hfs, ?_⟩
        simp [readEntries, hfs2, hrest]

theorem unreadable_exists_find (repoDir : Path)
    (fs : Path → Except String String) (ps : List Path)
    (h : ∃ p ∈ ps, unreadable repoDir fs p) :
    ∃ pbad, ps.find? (unreadable repoDir fs) = some pbad := by
  have := List.find?_isSome.mpr h
  cases hf : ps.find? (unreadable repoDir fs) with
  | none => rw [hf] at this; simp at this
  | some pbad => exact ⟨pbad, rfl⟩

theorem processDeletePath_ok_of_not_bad (cwd p : Path)
    (h : isBadDeletePath cwd p = false) :
    ∃ q, processDeletePath cwd p = .ok q := by
  unfold isBadDeletePath at h
  unfold processDeletePath
  by_cases h1 : strStartsWith ['/'] p
  · have h2 : strStartsWith cwd p = true := by
      rw [h1] at h; simpa using h
    refine ⟨p.drop (cwd.length + 1), ?_⟩
    simp [h1, h2]
  · exact ⟨p, by simp [h1]⟩

theorem processDeletePaths_error_of_find (cwd : Path) (ps : List Path)
    (pbad : Path) (h : ps.find? (isBadDeletePath cwd) = some pbad) :
    processDeletePaths cwd ps = .error ⟨deletePathErrMsg pbad, none⟩ := by
  induction ps with
  | nil => simp at h
  | cons p rest ih =>
    by_cases hp : isBadDeletePath cwd p
    · rw [List.find?_cons_of_pos _ hp] at h
      obtain rfl : p = pbad := by injection h
      unfold isBadDeletePath at hp
      have h1 : strStartsWith ['/'] p = true := by
        cases hcc : strStartsWith ['/'] p <;> rw [hcc] at hp <;> simpa using hp
      have h2 : strStartsWith cwd p = false := by
        rw [h1] at hp; simpa using hp
      simp [processDeletePaths, processDeletePath, h1, h2]
    · rw [List.find?_cons_of_neg _ (by simpa using hp)] at h
      obtain ⟨q, hq⟩ := processDeletePath_ok_of_not_bad cwd p (by simpa using hp)
      simp [processDeletePaths, hq, ih h]

theorem badDeletePath_exists_find (cwd : Path) (ps : List Path)
    (h : ∃ p ∈ ps, isBadDeletePath cwd p) :
    ∃ pbad, ps.find? (isBadDeletePath cwd) = some pbad := by
  have := List.find?_isSome.mpr h
  cases hf : ps.find? (isBadDeletePath cwd) with
  | none => rw [hf] at this; simp at this
  | some pbad => exact ⟨pbad, rfl⟩

theorem commitFilesRaw_trace_props {σ : Type} (token : Option String)
    (repoDir : Path) (branch : String) (fs : Path → Except String String)
    (O : Oracle σ) (s0 : σ) (files : List Path) (message : String) :
    noReqAfterPatch (commitFilesRaw token repoDir branch fs O s0 files message).2.1 = true ∧
    patchesAllNonForce (commitFilesRaw token repoDir branch fs O s0 files message).2.1 = true := by
  unfold commitFilesRaw
  cases token with
  | none => simp [noReqAfterPatch, patchesAllNonForce]
  | some tok =>
    by_cases htok : tok = ""
    · simp [htok, noReqAfterPatch, patchesAllNonForce]
    · simp only [if_neg htok]
      repeat' split
      all_goals simp [noReqAfterPatch, patchesAllNonForce]

theorem deleteFilesRaw_trace_props {σ : Type} (token : Option String)
    (cwd : Path) (branch : String) (O : Oracle σ) (s0 : σ)
    (paths : List Path) (message : String) :
    noReqAfterPatch (deleteFilesRaw token cwd branch O s0 paths message).2.1 = true ∧
    patchesAllNonForce (deleteFilesRaw token cwd branch O s0 paths message).2.1 = true := by
  unfold deleteFilesRaw
  cases token with
  | none => simp [noReqAfterPatch, patchesAllNonForce]
  | some tok =>
    by_cases htok : tok = ""
    · simp [htok, noReqAfterPatch, patchesAllNonForce]
    · simp only [if_neg htok]
      repeat' split
      all_goals simp [noReqAfterPatch, patchesAllNonForce]

theorem assocFind_cons {α β : Type} [DecidableEq α] (k : α) (v : β)
    (rest : List (α × β)) (a : α) :
    assocFind ((k, v) :: rest) a = if k = a then some v else assocFind rest a := rfl

theorem removePath_cons (kv : Path × BlobVal) (rest : TreeObj) (p : Path) :
    removePath (kv :: rest) p =
      if kv.1 = p then removePath rest p else kv :: removePath rest p := by
  simp only [removePath, List.filter_cons]
  by_cases hk : kv.1 = p
  · simp [hk]
  · simp [hk]

theorem assocFind_removePath_self (t : TreeObj) (p : Path) :
    assocFind (removePath t p) p = none := by
  induction t with
  | nil => rfl
  | cons kv rest ih =>
    obtain ⟨k, v⟩ := kv
    rw [removePath_cons]
    by_cases hk : k = p
    · rw [if_pos hk]
      exact ih
    · rw [if_neg hk, assocFind_cons, if_neg hk]
      exact ih

theorem assocFind_removePath_other (t : TreeObj) (p q : Path) (h : q ≠ p) :
    assocFind (removePath t p) q = assocFind t q := by
  induction t with
  | nil => rfl
  | cons kv rest ih =>
    obtain ⟨k, v⟩ := kv
    rw [removePath_cons]
    by_cases hk : k = p
    · rw [if_pos hk, assocFind_cons]
      have hkq : k ≠ q := by rw [hk]; exact fun hh => h hh.symm
      rw [if_neg hkq]
      exact ih
    · rw [if_neg hk, assocFind_cons, assocFind_cons]
      by_cases hq : k = q
      · rw [if_pos hq, if_pos hq]
      · rw [if_neg hq, if_neg hq]
        exact ih

theorem applyEntries_delete_lookup (ps : List Path) (t : TreeObj) (q : Path) :
    assocFind (applyEntries t (ps.map deleteEntry)) q =
      if q ∈ ps then none else assocFind t q := by
  induction ps generalizing t with
  | nil => simp [applyEntries]
  | cons p rest ih =>
    have hstep : applyEntries t ((p :: rest).map deleteEntry) =
        applyEntries (removePath t p) (rest.map deleteEntry) := rfl
    rw [hstep, ih]
    by_cases hqr : q ∈ rest
    · simp [hqr]
    · by_cases hqp : q = p
      · subst hqp
        simp [hqr, assocFind_removePath_self]
      · simp [hqr, hqp, assocFind_removePath_other t p q hqp]

theorem readEntries_shape (repoDir : Path) (fs : Path → Except String String)
    (ps : List Path) (es : List TreeEntry)
    (h : readEntries repoDir fs ps = .ok es) :
    es.map TreeEntry.path = ps ∧
      ∀ e ∈ es, e.mode = "100644" ∧ e.type = "blob" ∧
        ∃ c, e.payload = .content c ∧ fs (fullPathFor repoDir e.path) = .ok c := by
  induction ps generalizing es with
  | nil =>
    unfold readEntries at h
    obtain rfl : ([] : List TreeEntry) = es := by injection h
    simp
  | cons p rest ih =>
    unfold readEntries at h
    cases hfs : fs (fullPathFor repoDir p) with
    | error r => rw [hfs] at h; simp at h
    | ok c =>
      rw [hfs] at h
      cases hre : readEntries repoDir fs rest with
      | error e0 => rw [hre] at h; simp at h
      | ok es0 =>
        rw [hre] at h
        obtain rfl : (⟨p, "100644", "blob", .content c⟩ : TreeEntry) :: es0 = es := by
          injection h
        obtain ⟨hmap, hall⟩ := ih es0 hre
        refine ⟨by simp [hmap], ?_⟩
        intro e he
        rcases List.mem_cons.mp he with rfl | hmem
        · exact ⟨rfl, rfl, c, rfl, hfs⟩
        · exact hall e hmem

theorem commitFiles_success_run (tok : String) (htok : tok ≠ "")
    (repoDir : Path) (branch : String) (fs : Path → Except String String)
    (g0 : GitState) (files : List Path) (message : String)
    (c0 : CommitObj) (t0 : TreeObj) (entries : List TreeEntry)
    (hc : assocFind g0.commits g0.refSha = some c0)
    (ht : assocFind g0.trees c0.tree = some t0)
    (hread : readEntries repoDir fs (files.map stripSlash) = .ok entries) :
    commitFiles (some tok) repoDir branch fs faithfulOracle g0 files message =
      (.ok ⟨freshSha (g0.counter + 1), message, "remote-author", "remote-date",
            files.map stripSlash, freshSha g0.counter⟩,
       [Request.getRef branch, Request.getCommit g0.refSha,
        Request.postTree c0.tree entries,
        Request.postCommit message (freshSha g0.counter) [g0.refSha],
        Request.patchRef branch (freshSha (g0.counter + 1)) false],
       { refSha := freshSha (g0.counter + 1),
         commits := (freshSha (g0.counter + 1),
           ⟨freshSha g0.counter, [g0.refSha], message⟩) :: g0.commits,
         trees := (freshSha g0.counter, applyEntries t0 entries) :: g0.trees,
         counter := g0.counter + 2 }) := by
  unfold commitFiles commitFilesRaw faithfulOracle
  simp [htok, hc, ht, hread, assocFind_cons]

theorem commitFiles_read_error_run (tok : String) (htok : tok ≠ "")
    (repoDir : Path) (branch : String) (fs : Path → Except String String)
    (g0 : GitState) (files : List Path) (message : String)
    (c0 : CommitObj) (e : Thrown)
    (hc : assocFind g0.commits g0.refSha = some c0)
    (hre : readEntries repoDir fs (files.map stripSlash) = .error e) :
    commitFiles (some tok) repoDir branch fs faithfulOracle g0 files message =
      (.error (normalizeThrown "commit files" e),
       [Request.getRef branch, Request.getCommit g0.refSha], g0) := by
  unfold commitFiles commitFilesRaw faithfulOracle
  simp [htok, hc, hre]

theorem deleteFiles_success_run (tok : String) (htok : tok ≠ "")
    (cwd : Path) (branch : String) (g0 : GitState)
    (paths : List Path) (message : String)
    (c0 : CommitObj) (t0 : TreeObj) (pps : List Path)
    (hc : assocFind g0.commits g0.refSha = some c0)
    (ht : assocFind g0.trees c0.tree = some t0)
    (hproc : processDeletePaths cwd paths = .ok pps) :
    deleteFiles (some tok) cwd branch faithfulOracle g0 paths message =
      (.ok ⟨freshSha (g0.counter + 1), message, "remote-author", "remote-date",
            pps, freshSha g0.counter⟩,
       [Request.getRef branch, Request.getCommit g0.refSha,
        Request.postTree c0.tree (pps.map deleteEntry),
        Request.postCommit message (freshSha g0.counter) [g0.refSha],
        Request.patchRef branch (freshSha (g0.counter + 1)) false],
       { refSha := freshSha (g0.counter + 1),
         commits := (freshSha (g0.counter + 1),
           ⟨freshSha g0.counter, [g0.refSha], message⟩) :: g0.commits,
         trees := (freshSha g0.counter,
           applyEntries t0 (pps.map deleteEntry)) :: g0.trees,
         counter := g0.counter + 2 }) := by
  unfold deleteFiles deleteFilesRaw faithfulOracle
  simp [htok, hc, ht, hproc, assocFind_cons]

theorem deleteFiles_validation_error_run {σ : Type} (tok : String)
    (htok : tok ≠ "") (cwd : Path) (branch : String) (O : Oracle σ) (s0 : σ)
    (paths : List Path) (message : String) (e : Thrown)
    (hproc : processDeletePaths cwd paths = .error e) :
    deleteFiles (some tok) cwd branch O s0 paths message =
      (.error (normalizeThrown "delete files" e), [], s0) := by
  unfold deleteFiles deleteFilesRaw
  simp [htok, hproc]

theorem commitFiles_moved_ref_run (tok : String) (htok : tok ≠ "")
    (repoDir : Path) (branch : String) (fs : Path → Except String String)
    (g0 : GitState) (files : List Path) (message : String)
    (c0 : CommitObj) (t0 : TreeObj) (entries : List TreeEntry) (otherSha : Sha)
    (hc : assocFind g0.commits g0.refSha = some c0)
    (ht : assocFind g0.trees c0.tree = some t0)
    (hread : readEntries repoDir fs (files.map stripSlash) = .ok entries)
    (hmoved : otherSha ≠ g0.refSha) :
    commitFiles (some tok) repoDir branch fs (movedRefOracle otherSha) g0
        files message =
      (.error ⟨updateRefFailMsg 422 "Update is not a fast-forward", none⟩,
       [Request.getRef branch, Request.getCommit g0.refSha,
        Request.postTree c0.tree entries,
        Request.postCommit message (freshSha g0.counter) [g0.refSha],
        Request.patchRef branch (freshSha (g0.counter + 1)) false],
       { refSha := otherSha,
         commits := (freshSha (g0.counter + 1),
           ⟨freshSha g0.counter, [g0.refSha], message⟩) :: g0.commits,
         trees := (freshSha g0.counter, applyEntries t0 entries) :: g0.trees,
         counter := g0.counter + 2 }) := by
  have hne : g0.refSha ≠ otherSha := fun hh => hmoved hh.symm
  unfold commitFiles commitFilesRaw movedRefOracle faithfulOracle
  simp [htok, hc, ht, hread, assocFind_cons, hne]
  exact normalizeThrown_preserve _
    ⟨updateRefFailMsg 422 "Update is not a fast-forward", none⟩
    (updateRefFailMsg_trigger 422 _)

/-- C2 (counterexample): a concrete commit invocation whose final
reference update succeeds returns the success result immediately; the
full request trace ends with the `PATCH` of the reference and contains no
subsequent read-back `GET` of the reference, refuting the claim that a
read-back comparison is performed before returning. -/
theorem C2_counterexample :
    commitFiles (some "tok") "/repo".data "main" (fun _ => .ok "data")
        faithfulOracle gExample ["f.txt".data] "msg" =
      (.ok ⟨"obj1", "msg", "remote-author", "remote-date", ["f.txt".data], "obj0"⟩,
       [Request.getRef "main", Request.getCommit "base1",
        Request.postTree "t0" [⟨"f.txt".data, "100644", "blob", .content "data"⟩],
        Request.postCommit "msg" "obj0" ["base1"],
        Request.patchRef "main" "obj1" false],
       ⟨"obj1",
        [("obj1", ⟨"obj0", ["base1"], "msg"⟩), ("base1", ⟨"t0", [], "init"⟩)],
        [("obj0", [("f.txt".data, .bcontent "data")]), ("t0", [])], 2⟩) ∧
    noReqAfterPatch
      [Request.getRef "main", Request.getCommit "base1",
       Request.postTree "t0" [⟨"f.txt".data, "100644", "blob", .content "data"⟩],
       Request.postCommit "msg" "obj0" ["base1"],
       Request.patchRef "main" "obj1" false] = true := by
  exact ⟨by decide, by decide⟩

/-- C2 (amended): for every commit or delete invocation, against any
remote behavior, no request at all is issued after the final reference
update; in particular, after a successful update the success result is
returned immediately with no read-back `GET` of the reference. -/
theorem C2_no_readback {σ τ : Type} (token token2 : Option String)
    (repoDir cwd : Path) (branch branch2 : String)
    (fs : Path → Except String String) (O : Oracle σ) (s0 : σ)
    (O2 : Oracle τ) (t0 : τ) (files paths : List Path)
    (message message2 : String) :
    noReqAfterPatch
      (commitFiles token repoDir branch fs O s0 files message).2.1 = true ∧
    noReqAfterPatch
      (deleteFiles token2 cwd branch2 O2 t0 paths message2).2.1 = true := by
  constructor
  · have h := commitFiles_snd_eq token repoDir branch fs O s0 files message
    rw [h]
    exact (commitFilesRaw_trace_props token repoDir branch fs O s0 files message).1
  · have h := deleteFiles_snd_eq token2 cwd branch2 O2 t0 paths message2
    rw [h]
    exact (deleteFilesRaw_trace_props token2 cwd branch2 O2 t0 paths message2).1

/-- C7: every reference update either tool ever issues carries `force =
false`, for any inputs and any remote behavior; and in the simulated
concurrent-writer scenario (the branch tip moves to `otherSha` right
after the initial read) the final update is rejected by the faithful
remote and the branch still points at the concurrent writer's commit —
no force-overwrite occurs. -/
theorem C7_no_force_update :
    (∀ (σ : Type) (token : Option String) (repoDir : Path) (branch : String)
       (fs : Path → Except String String) (O : Oracle σ) (s0 : σ)
       (files : List Path) (message : String),
       patchesAllNonForce
         (commitFiles token repoDir branch fs O s0 files message).2.1 = true) ∧
    (∀ (τ : Type) (token : Option String) (cwd : Path) (branch : String)
       (O2 : Oracle τ) (t0 : τ) (paths : List Path) (message : String),
       patchesAllNonForce
         (deleteFiles token cwd branch O2 t0 paths message).2.1 = true) ∧
    (∀ (tok : String) (repoDir : Path) (branch : String)
       (fs : Path → Except String String) (g0 : GitState)
       (files : List Path) (message : String) (c0 : CommitObj) (t0 : TreeObj)
       (entries : List TreeEntry) (otherSha : Sha),
       tok ≠ "" →
       assocFind g0.commits g0.refSha = some c0 →
       assocFind g0.trees c0.tree = some t0 →
       readEntries repoDir fs (files.map stripSlash) = .ok entries →
       otherSha ≠ g0.refSha →
       (commitFiles (some tok) repoDir branch fs (movedRefOracle otherSha) g0
           files message).1 =
         .error ⟨updateRefFailMsg 422 "Update is not a fast-forward", none⟩ ∧
       (commitFiles (some tok) repoDir branch fs (movedRefOracle otherSha) g0
           files message).2.2.refSha = otherSha) := by
  refine ⟨?_, ?_, ?_⟩
  · intro σ token repoDir branch fs O s0 files message
    have h := commitFiles_snd_eq token repoDir branch fs O s0 files message
    rw [h]
    exact (commitFilesRaw_trace_props token repoDir branch fs O s0 files message).2
  · intro τ token cwd branch O2 t0 paths message
    have h := deleteFiles_snd_eq token cwd branch O2 t0 paths message
    rw [h]
    exact (deleteFilesRaw_trace_props token cwd branch O2 t0 paths message).2
  · intro tok repoDir branch fs g0 files message c0 t0 entries otherSha
      htok hc ht hread hmoved
    have h := commitFiles_moved_ref_run tok htok repoDir branch fs g0 files
      message c0 t0 entries otherSha hc ht hread hmoved
    rw [h]
    exact ⟨rfl, rfl⟩

/-- C8: whichever stage fails and whatever the underlying cause, both
tools return an error whose message is non-empty: the outer catch block
substitutes fallback text when the cause's message is empty, the string
undefined, or the string object-Object. -/
theorem C8_error_message_nonempty :
    (∀ (σ : Type) (O : Oracle σ) (token : Option String) (repoDir : Path)
       (branch : String) (fs : Path → Except String String) (s0 : σ)
       (files : List Path) (message : String) (e : Thrown)
       (tr : List Request) (s : σ),
       commitFiles token repoDir branch fs O s0 files message =
         (.error e, tr, s) → e.message ≠ "") ∧
    (∀ (τ : Type) (O2 : Oracle τ) (token : Option String) (cwd : Path)
       (branch : String) (t0 : τ) (paths : List Path) (message : String)
       (e : Thrown) (tr : List Request) (s : τ),
       deleteFiles token cwd branch O2 t0 paths message =
         (.error e, tr, s) → e.message ≠ "") := by
  constructor
  · intro σ O token repoDir branch fs s0 files message e tr s h
    unfold commitFiles at h
    rcases hr : commitFilesRaw token repoDir branch fs O s0 files message
      with ⟨r, tr2, s2⟩
    rw [hr] at h
    cases r with
    | ok v => simp at h
    | error e0 =>
      simp only [Prod.mk.injEq, Except.error.injEq] at h
      rw [← h.1]
      exact normalizeThrown_message_ne_empty _ _
  · intro τ O2 token cwd branch t0 paths message e tr s h
    unfold deleteFiles at h
    rcases hr : deleteFilesRaw token cwd branch O2 t0 paths message
      with ⟨r, tr2, s2⟩
    rw [hr] at h
    cases r with
    | ok v => simp at h
    | error e0 =>
      simp only [Prod.mk.injEq, Except.error.injEq] at h
      rw [← h.1]
      exact normalizeThrown_message_ne_empty _ _

/-- C10: the delete containment check is a plain string-prefix test
followed by dropping the first `cwd.length + 1` characters: a path that
extends the working directory string without a path separator (such as
`cwd ++ "-other/file"`) is accepted, and the submitted deletion path is
the remainder after the extra character is also dropped; the path equal
to `cwd` itself is likewise accepted and becomes the empty path. -/
theorem C10_prefix_containment_quirk (ctail s : Path) :
    processDeletePath ('/' :: ctail) (('/' :: ctail) ++ '-' :: s) = .ok s ∧
    processDeletePath ('/' :: ctail) ('/' :: ctail) = .ok [] := by
  constructor
  · have h1 : strStartsWith ['/'] (('/' :: ctail) ++ '-' :: s) = true := by
      simp [strStartsWith]
    have h2 : strStartsWith ('/' :: ctail) (('/' :: ctail) ++ '-' :: s) = true :=
      strStartsWith_append_self _ _
    unfold processDeletePath
    rw [h1, h2]
    simp only [if_true]
    rw [show ('/' :: ctail).length + 1 = ('/' :: ctail).length + 1 from rfl,
      List.drop_append 1]
    rfl
  · have h1 : strStartsWith ['/'] ('/' :: ctail) = true := by
      simp [strStartsWith]
    have h2 : strStartsWith ('/' :: ctail) ('/' :: ctail) = true := by
      have := strStartsWith_append_self ('/' :: ctail) []
      simpa using this
    unfold processDeletePath
    rw [h1, h2]
    simp only [if_true]
    rw [List.drop_eq_nil_of_le (by simp)]

/-- Witness for C7: the concrete success run issues only a non-force
reference update, and the concrete concurrent-writer run is rejected. -/
theorem C7_witness :
    patchesAllNonForce
      (commitFiles (some "tok") "/repo".data "main" (fun _ => .ok "data")
        faithfulOracle gExample ["f.txt".data] "msg").2.1 = true ∧
    (commitFiles (some "tok") "/repo".data "main" (fun _ => .ok "data")
        (movedRefOracle "zzz") gExample ["f.txt".data] "msg").1 =
      .error ⟨updateRefFailMsg 422 "Update is not a fast-forward", none⟩ := by
  constructor
  · exact C7_no_force_update.1 GitState (some "tok") "/repo".data "main"
      (fun _ => .ok "data") faithfulOracle gExample ["f.txt".data] "msg"
  · exact (C7_no_force_update.2.2 "tok" "/repo".data "main"
      (fun _ => .ok "data") gExample ["f.txt".data] "msg" ⟨"t0", [], "init"⟩ []
      [⟨"f.txt".data, "100644", "blob", .content "data"⟩] "zzz"
      (by decide) (by decide) (by decide) (by decide) (by decide)).1

/-- Witness for C8: the token-missing failure carries a non-empty
message. -/
theorem C8_witness : (⟨tokenErrMsg, none⟩ : Thrown).message ≠ "" := by
  exact C8_error_message_nonempty.1 GitState faithfulOracle none "/repo".data
    "main" (fun _ => .ok "data") gExample [] "m" ⟨tokenErrMsg, none⟩ []
    gExample (by decide)

/-- C3: when at least one input file is unreadable, `commit_files` fails
with an error naming the first offending resolved path, after only the
two reads (branch reference and base commit) and before any remote
write; the faithful remote's state is left exactly as it was. -/
theorem C3_unreadable_aborts_before_writes (tok : String) (repoDir : Path)
    (branch : String) (fs : Path → Except String String) (g0 : GitState)
    (files : List Path) (message : String) (c0 : CommitObj)
    (htok : tok ≠ "")
    (hc : assocFind g0.commits g0.refSha = some c0)
    (hbad : ∃ p ∈ files.map stripSlash, unreadable repoDir fs p) :
    ∃ pbad reason,
      (files.map stripSlash).find? (unreadable repoDir fs) = some pbad ∧
      fs (fullPathFor repoDir pbad) = .error reason ∧
      commitFiles (some tok) repoDir branch fs faithfulOracle g0 files message =
        (.error ⟨readFailMsg (fullPathFor repoDir pbad) reason, none⟩,
         [Request.getRef branch, Request.getCommit g0.refSha], g0) ∧
      (∀ r ∈ [Request.getRef branch, Request.getCommit g0.refSha],
        isWriteRequest r = false) := by
  obtain ⟨pbad, hfind⟩ := unreadable_exists_find repoDir fs _ hbad
  obtain ⟨reason, hfs, hre⟩ := readEntries_error_of_find repoDir fs _ pbad hfind
  refine ⟨pbad, reason, hfind, hfs, ?_, by simp [isWriteRequest]⟩
  rw [commitFiles_read_error_run tok htok repoDir branch fs g0 files message
    c0 _ hc hre]
  rw [normalizeThrown_preserve _ _ (readFailMsg_trigger _ _)]

/-- Witness for C3: a concrete run with an unreadable file stops after
the two reads with the remote unchanged. -/
theorem C3_witness :
    ∃ pbad reason,
      (["f.txt".data].map stripSlash).find?
        (unreadable "/repo".data (fun _ => .error "ENOENT")) = some pbad ∧
      (fun _ => (.error "ENOENT" : Except String String))
        (fullPathFor "/repo".data pbad) = .error reason ∧
      commitFiles (some "tok") "/repo".data "main" (fun _ => .error "ENOENT")
          faithfulOracle gExample ["f.txt".data] "msg" =
        (.error ⟨readFailMsg (fullPathFor "/repo".data pbad) reason, none⟩,
         [Request.getRef "main", Request.getCommit gExample.refSha], gExample) ∧
      (∀ r ∈ [Request.getRef "main", Request.getCommit gExample.refSha],
        isWriteRequest r = false) := by
  exact C3_unreadable_aborts_before_writes "tok" "/repo".data "main"
    (fun _ => .error "ENOENT") gExample ["f.txt".data] "msg" ⟨"t0", [], "init"⟩
    (by decide) (by decide) (by decide)

/-- C4: a successful commit invocation creates, via the faithful remote,
a commit whose only parent is the tip read in step 1, whose tree is the
fresh tree created in step 4 (the base tree overlaid with one
`mode 100644`, `type blob`, inline-content entry per file), and whose
message is the caller's verbatim; the branch reference then points at
that commit. -/
theorem C4_commit_success_shape (tok : String) (repoDir : Path)
    (branch : String) (fs : Path → Except String String) (g0 : GitState)
    (files : List Path) (message : String) (c0 : CommitObj) (t0 : TreeObj)
    (entries : List TreeEntry)
    (htok : tok ≠ "")
    (hc : assocFind g0.commits g0.refSha = some c0)
    (ht : assocFind g0.trees c0.tree = some t0)
    (hread : readEntries repoDir fs (files.map stripSlash) = .ok entries) :
    commitFiles (some tok) repoDir branch fs faithfulOracle g0 files message =
      (.ok ⟨freshSha (g0.counter + 1), message, "remote-author", "remote-date",
            files.map stripSlash, freshSha g0.counter⟩,
       [Request.getRef branch, Request.getCommit g0.refSha,
        Request.postTree c0.tree entries,
        Request.postCommit message (freshSha g0.counter) [g0.refSha],
        Request.patchRef branch (freshSha (g0.counter + 1)) false],
       { refSha := freshSha (g0.counter + 1),
         commits := (freshSha (g0.counter + 1),
           ⟨freshSha g0.counter, [g0.refSha], message⟩) :: g0.commits,
         trees := (freshSha g0.counter, applyEntries t0 entries) :: g0.trees,
         counter := g0.counter + 2 }) ∧
    entries.map TreeEntry.path = files.map stripSlash ∧
    (∀ e ∈ entries, e.mode = "100644" ∧ e.type = "blob" ∧
      ∃ c, e.payload = .content c ∧ fs (fullPathFor repoDir e.path) = .ok c) ∧
    assocFind ((freshSha (g0.counter + 1),
        (⟨freshSha g0.counter, [g0.refSha], message⟩ : CommitObj)) :: g0.commits)
      (freshSha (g0.counter + 1)) =
      some ⟨freshSha g0.counter, [g0.refSha], message⟩ ∧
    assocFind ((freshSha g0.counter, applyEntries t0 entries) :: g0.trees)
      (freshSha g0.counter) = some (applyEntries t0 entries) := by
  obtain ⟨hmap, hall⟩ := readEntries_shape repoDir fs _ entries hread
  exact ⟨commitFiles_success_run tok htok repoDir branch fs g0 files message
      c0 t0 entries hc ht hread,
    hmap, hall, by simp [assocFind_cons], by simp [assocFind_cons]⟩

/-- Witness for C4: the concrete success run, applied. -/
theorem C4_witness :
    (commitFiles (some "tok") "/repo".data "main" (fun _ => .ok "data")
        faithfulOracle gExample ["f.txt".data] "msg").1 =
      .ok ⟨"obj1", "msg", "remote-author", "remote-date",
           ["f.txt".data], "obj0"⟩ := by
  have h := C4_commit_success_shape "tok" "/repo".data "main"
    (fun _ => .ok "data") gExample ["f.txt".data] "msg" ⟨"t0", [], "init"⟩ []
    [⟨"f.txt".data, "100644", "blob", .content "data"⟩]
    (by decide) (by decide) (by decide) (by decide)
  rw [h.1]
  decide

/-- C5: a successful delete invocation submits, as step-4 tree entries,
exactly one `mode 100644`, `type blob`, `sha null` entry per processed
path overlaid on the base tree; in the resulting tree every given path
is absent and every other path is bound exactly as in the base tree, and
the new commit's only parent is the previous tip. -/
theorem C5_delete_success_shape (tok : String) (cwd : Path) (branch : String)
    (g0 : GitState) (paths : List Path) (message : String)
    (c0 : CommitObj) (t0 : TreeObj) (pps : List Path)
    (htok : tok ≠ "")
    (hc : assocFind g0.commits g0.refSha = some c0)
    (ht : assocFind g0.trees c0.tree = some t0)
    (hproc : processDeletePaths cwd paths = .ok pps) :
    deleteFiles (some tok) cwd branch faithfulOracle g0 paths message =
      (.ok ⟨freshSha (g0.counter + 1), message, "remote-author", "remote-date",
            pps, freshSha g0.counter⟩,
       [Request.getRef branch, Request.getCommit g0.refSha,
        Request.postTree c0.tree (pps.map deleteEntry),
        Request.postCommit message (freshSha g0.counter) [g0.refSha],
        Request.patchRef branch (freshSha (g0.counter + 1)) false],
       { refSha := freshSha (g0.counter + 1),
         commits := (freshSha (g0.counter + 1),
           ⟨freshSha g0.counter, [g0.refSha], message⟩) :: g0.commits,
         trees := (freshSha g0.counter,
           applyEntries t0 (pps.map deleteEntry)) :: g0.trees,
         counter := g0.counter + 2 }) ∧
    pps.map deleteEntry =
      pps.map (fun p => ⟨p, "100644", "blob", .sha none⟩) ∧
    (∀ q, assocFind (applyEntries t0 (pps.map deleteEntry)) q =
      if q ∈ pps then none else assocFind t0 q) := by
  exact ⟨deleteFiles_success_run tok htok cwd branch g0 paths message
      c0 t0 pps hc ht hproc,
    rfl, fun q => applyEntries_delete_lookup pps t0 q⟩

/-- Witness for C5: the concrete delete run, applied. -/
theorem C5_witness :
    (deleteFiles (some "tok") "/repo".data "main" faithfulOracle gExample
        ["f.txt".data] "msg").1 =
      .ok ⟨"obj1", "msg", "remote-author", "remote-date",
           ["f.txt".data], "obj0"⟩ := by
  have h := C5_delete_success_shape "tok" "/repo".data "main" gExample
    ["f.txt".data] "msg" ⟨"t0", [], "init"⟩ [] ["f.txt".data]
    (by decide) (by decide) (by decide) (by decide)
  rw [h.1]
  decide

/-- C6: a deletion path that begins with a slash but is not prefixed by
the current working directory makes `delete_files` fail with the
input-validation error naming that path, with an empty request trace (no
remote call at all); a leading-slash path that is prefixed by the
current working directory is accepted with the first `cwd.length + 1`
characters stripped, making it repository-relative. -/
theorem C6_delete_path_validation {σ : Type} (O : Oracle σ) :
    (∀ (tok : String), tok ≠ "" →
       ∀ (cwd : Path) (branch : String) (s0 : σ) (paths : List Path)
         (message : String) (pbad : Path),
       paths.find? (isBadDeletePath cwd) = some pbad →
       deleteFiles (some tok) cwd branch O s0 paths message =
         (.error ⟨deletePathErrMsg pbad, none⟩, [], s0)) ∧
    (∀ (cwd p : Path), strStartsWith ['/'] p = true →
       strStartsWith cwd p = true →
       processDeletePath cwd p = .ok (p.drop (cwd.length + 1))) := by
  constructor
  · intro tok htok cwd branch s0 paths message pbad hfind
    have hproc := processDeletePaths_error_of_find cwd paths pbad hfind
    rw [deleteFiles_validation_error_run tok htok cwd branch O s0 paths
      message _ hproc]
    rw [normalizeThrown_preserve _ _ (deletePathErrMsg_trigger _)]
  · intro cwd p h1 h2
    unfold processDeletePath
    rw [h1, h2]
    simp

/-- Witness for C6: a concrete absolute path outside the working
directory is rejected with no remote call, and a concrete in-directory
absolute path is stripped. -/
theorem C6_witness :
    deleteFiles (some "tok") "/repo".data "main" faithfulOracle gExample
        ["/outside/x".data] "msg" =
      (.error ⟨deletePathErrMsg "/outside/x".data, none⟩, [], gExample) ∧
    processDeletePath "/repo".data "/repo/a.txt".data =
      .ok ("/repo/a.txt".data.drop ("/repo".data.length + 1)) := by
  constructor
  · exact (C6_delete_path_validation faithfulOracle).1 "tok" (by decide)
      "/repo".data "main" gExample ["/outside/x".data] "msg"
      "/outside/x".data (by decide)
  · exact (C6_delete_path_validation faithfulOracle).2 "/repo".data
      "/repo/a.txt".data (by decide) (by decide)

/-- C1 (counterexample): a concrete commit invocation whose final
reference update is rejected (HTTP 500) returns an error whose message
is exactly the status and body of the failed update; the already-created
tree sha `t1` and commit sha `c1` (visible in the request trace) occur
nowhere in the error value. -/
theorem C1_counterexample :
    commitFiles (some "tok") "/repo".data "main" (fun _ => .ok "data")
        patchFailOracle () ["f.txt".data] "msg" =
      (.error ⟨"Failed to update reference: 500 - boom", none⟩,
       [Request.getRef "main", Request.getCommit "base1",
        Request.postTree "t0"
          [⟨"f.txt".data, "100644", "blob", .content "data"⟩],
        Request.postCommit "msg" "t1" ["base1"],
        Request.patchRef "main" "c1" false], ()) ∧
    ¬ ("t1".data <:+: ("Failed to update reference: 500 - boom").data) ∧
    ¬ ("c1".data <:+: ("Failed to update reference: 500 - boom").data) := by
  refine ⟨by decide, by decide, by decide⟩

/-- C1 (amended): when the final reference update of a commit or delete
invocation fails, the error returned to the caller carries the failing
stage and the HTTP status and response body (for a rejected update) or a
network-error message (for a transport failure); the shas of the
already-created tree and commit objects are not part of the error value. -/
theorem C1_ref_update_error_payload :
    (∀ (σ : Type) (O : Oracle σ) (tok : String), tok ≠ "" →
      ∀ (repoDir : Path) (branch : String) (fs : Path → Except String String)
        (s0 s1 s2 s3 s4 s5 : σ) (files : List Path) (message : String)
        (baseSha baseTreeSha treeSha : Sha) (entries : List TreeEntry)
        (nc : NewCommitData) (st : Nat) (body : String),
      O.getRef branch s0 = (.ok baseSha, s1) →
      O.getCommit baseSha s1 = (.ok baseTreeSha, s2) →
      readEntries repoDir fs (files.map stripSlash) = .ok entries →
      O.postTree baseTreeSha entries s2 = (.ok treeSha, s3) →
      O.postCommit message treeSha [baseSha] s3 = (.ok nc, s4) →
      O.patchRef branch nc.sha false s4 = (.httpError st body, s5) →
      commitFiles (some tok) repoDir branch fs O s0 files message =
        (.error ⟨updateRefFailMsg st body, none⟩,
         [Request.getRef branch, Request.getCommit baseSha,
          Request.postTree baseTreeSha entries,
          Request.postCommit message treeSha [baseSha],
          Request.patchRef branch nc.sha false], s5)) ∧
    (∀ (σ : Type) (O : Oracle σ) (tok : String), tok ≠ "" →
      ∀ (repoDir : Path) (branch : String) (fs : Path → Except String String)
        (s0 s1 s2 s3 s4 s5 : σ) (files : List Path) (message : String)
        (baseSha baseTreeSha treeSha : Sha) (entries : List TreeEntry)
        (nc : NewCommitData) (m : String),
      O.getRef branch s0 = (.ok baseSha, s1) →
      O.getCommit baseSha s1 = (.ok baseTreeSha, s2) →
      readEntries repoDir fs (files.map stripSlash) = .ok entries →
      O.postTree baseTreeSha entries s2 = (.ok treeSha, s3) →
      O.postCommit message treeSha [baseSha] s3 = (.ok nc, s4) →
      O.patchRef branch nc.sha false s4 = (.transportError m, s5) →
      commitFiles (some tok) repoDir branch fs O s0 files message =
        (.error ⟨networkErrMsg m, none⟩,
         [Request.getRef branch, Request.getCommit baseSha,
          Request.postTree baseTreeSha entries,
          Request.postCommit message treeSha [baseSha],
          Request.patchRef branch nc.sha false], s5)) ∧
    (∀ (σ : Type) (O : Oracle σ) (tok : String), tok ≠ "" →
      ∀ (cwd : Path) (branch : String) (s0 s1 s2 s3 s4 s5 : σ)
        (paths : List Path) (message : String)
        (baseSha baseTreeSha treeSha : Sha) (pps : List Path)
        (nc : NewCommitData) (st : Nat) (body : String),
      processDeletePaths cwd paths = .ok pps →
      O.getRef branch s0 = (.ok baseSha, s1) →
      O.getCommit baseSha s1 = (.ok baseTreeSha, s2) →
      O.postTree baseTreeSha (pps.map deleteEntry) s2 = (.ok treeSha, s3) →
      O.postCommit message treeSha [baseSha] s3 = (.ok nc, s4) →
      O.patchRef branch nc.sha false s4 = (.httpError st body, s5) →
      deleteFiles (some tok) cwd branch O s0 paths message =
        (.error ⟨updateRefFailMsg st body, none⟩,
         [Request.getRef branch, Request.getCommit baseSha,
          Request.postTree baseTreeSha (pps.map deleteEntry),
          Request.postCommit message treeSha [baseSha],
          Request.patchRef branch nc.sha false], s5)) ∧
    (∀ (σ : Type) (O : Oracle σ) (tok : String), tok ≠ "" →
      ∀ (cwd : Path) (branch : String) (s0 s1 s2 s3 s4 s5 : σ)
        (paths : List Path) (message : String)
        (baseSha baseTreeSha treeSha : Sha) (pps : List Path)
        (nc : NewCommitData) (m : String),
      processDeletePaths cwd paths = .ok pps →
      O.getRef branch s0 = (.ok baseSha, s1) →
      O.getCommit baseSha s1 = (.ok baseTreeSha, s2) →
      O.postTree baseTreeSha (pps.map deleteEntry) s2 = (.ok treeSha, s3) →
      O.postCommit message treeSha [baseSha] s3 = (.ok nc, s4) →
      O.patchRef branch nc.sha false s4 = (.transportError m, s5) →
      deleteFiles (some tok) cwd branch O s0 paths message =
        (.error ⟨networkErrMsg m, none⟩,
         [Request.getRef branch, Request.getCommit baseSha,
          Request.postTree baseTreeSha (pps.map deleteEntry),
          Request.postCommit message treeSha [baseSha],
          Request.patchRef branch nc.sha false], s5)) := by
  refine ⟨?_, ?_, ?_, ?_⟩
  · intro σ O tok htok repoDir branch fs s0 s1 s2 s3 s4 s5 files message
      baseSha baseTreeSha treeSha entries nc st body h1 h2 hread h4 h5 hp
    unfold commitFiles commitFilesRaw
    simp [htok, h1, h2, hread, h4, h5, hp]
    exact normalizeThrown_preserve _ ⟨updateRefFailMsg st body, none⟩
      (updateRefFailMsg_trigger st body)
  · intro σ O tok htok repoDir branch fs s0 s1 s2 s3 s4 s5 files message
      baseSha baseTreeSha treeSha entries nc m h1 h2 hread h4 h5 hp
    unfold commitFiles commitFilesRaw
    simp [htok, h1, h2, hread, h4, h5, hp]
    exact normalizeThrown_preserve _ ⟨networkErrMsg m, none⟩
      (networkErrMsg_trigger m)
  · intro σ O tok htok cwd branch s0 s1 s2 s3 s4 s5 paths message
      baseSha baseTreeSha treeSha pps nc st body hproc h1 h2 h4 h5 hp
    unfold deleteFiles deleteFilesRaw
    simp [htok, hproc, h1, h2, h4, h5, hp]
    exact normalizeThrown_preserve _ ⟨updateRefFailMsg st body, none⟩
      (updateRefFailMsg_trigger st body)
  · intro σ O tok htok cwd branch s0 s1 s2 s3 s4 s5 paths message
      baseSha baseTreeSha treeSha pps nc m hproc h1 h2 h4 h5 hp
    unfold deleteFiles deleteFilesRaw
    simp [htok, hproc, h1, h2, h4, h5, hp]
    exact normalizeThrown_preserve _ ⟨networkErrMsg m, none⟩
      (networkErrMsg_trigger m)

/-- Witness for C1 (amended): the http-rejection case at a concrete
input. -/
theorem C1_witness :
    commitFiles (some "tok") "/repo".data "main" (fun _ => .ok "data")
        patchFailOracle () ["g.txt".data] "m2" =
      (.error ⟨updateRefFailMsg 500 "boom", none⟩,
       [Request.getRef "main", Request.getCommit "base1",
        Request.postTree "t0"
          [⟨"g.txt".data, "100644", "blob", .content "data"⟩],
        Request.postCommit "m2" "t1" ["base1"],
        Request.patchRef "main" "c1" false], ()) := by
  exact C1_ref_update_error_payload.1 Unit patchFailOracle "tok" (by decide)
    "/repo".data "main" (fun _ => .ok "data") () () () () () ()
    ["g.txt".data] "m2" "base1" "t0" "t1"
    [⟨"g.txt".data, "100644", "blob", .content "data"⟩]
    ⟨"c1", "m2", "a", "d"⟩ 500 "boom"
    (by decide) (by decide) (by decide) (by decide) (by decide) (by decide)

/-- C9 (counterexample): a commit path beginning with two slashes still
begins with a slash after the single leading-slash strip, so the step-3
branch that uses the absolute path directly is reached: the file content
is read from the absolute location `/etc/x` (here `SECRET`) even though
that path joined under the repository root is unreadable, and the
invocation is not rejected. -/
theorem C9_counterexample :
    commitFiles (some "tok") "/repo".data "main" fsAbs faithfulOracle gExample
        ["//etc/x".data] "msg" =
      (.ok ⟨"obj1", "msg", "remote-author", "remote-date",
            ["/etc/x".data], "obj0"⟩,
       [Request.getRef "main", Request.getCommit "base1",
        Request.postTree "t0"
          [⟨"/etc/x".data, "100644", "blob", .content "SECRET"⟩],
        Request.postCommit "msg" "obj0" ["base1"],
        Request.patchRef "main" "obj1" false],
       ⟨"obj1",
        [("obj1", ⟨"obj0", ["base1"], "msg"⟩), ("base1", ⟨"t0", [], "init"⟩)],
        [("obj0", [("/etc/x".data, .bcontent "SECRET")]), ("t0", [])], 2⟩) ∧
    fsAbs (joinPath "/repo".data (stripSlash "//etc/x".data)) =
      .error "ENOENT" ∧
    strStartsWith ['/'] (stripSlash "//etc/x".data) = true := by
  refine ⟨by decide, by decide, by decide⟩

/-- C9 (amended): `commit_files` strips exactly one leading slash from
every slash-prefixed path; a path with a single leading slash is then
read from the repository root joined with the remainder, but a path
beginning with two slashes still begins with a slash after the strip and
is read from that absolute location directly; no input path is ever
rejected — with a readable filesystem and the faithful remote, every
file list commits successfully. -/
theorem C9_slash_path_handling :
    (∀ p : Path, stripSlash ('/' :: p) = p) ∧
    (∀ (repoDir p : Path), strStartsWith ['/'] p = false →
       fullPathFor repoDir (stripSlash ('/' :: p)) = joinPath repoDir p) ∧
    (∀ (repoDir p : Path),
       fullPathFor repoDir (stripSlash ('/' :: '/' :: p)) = '/' :: p) ∧
    (∀ (tok : String), tok ≠ "" →
       ∀ (repoDir : Path) (branch : String) (ccont : String) (g0 : GitState)
         (c0 : CommitObj) (t0 : TreeObj),
       assocFind g0.commits g0.refSha = some c0 →
       assocFind g0.trees c0.tree = some t0 →
       ∀ (files : List Path) (message : String),
       ∃ res tr g1,
         commitFiles (some tok) repoDir branch (fun _ => .ok ccont)
           faithfulOracle g0 files message = (.ok res, tr, g1)) := by
  refine ⟨?_, ?_, ?_, ?_⟩
  · intro p
    simp [stripSlash, strStartsWith]
  · intro repoDir p h
    simp [stripSlash, strStartsWith, fullPathFor, h]
  · intro repoDir p
    simp [stripSlash, strStartsWith, fullPathFor]
  · intro tok htok repoDir branch ccont g0 c0 t0 hc ht files message
    exact ⟨_, _, _, commitFiles_success_run tok htok repoDir branch
      (fun _ => .ok ccont) g0 files message c0 t0 _ hc ht
      (readEntries_const repoDir ccont (files.map stripSlash))⟩

/-- Witness for C9 (amended): concrete instances of the four parts. -/
theorem C9_witness :
    stripSlash ('/' :: "a.txt".data) = "a.txt".data ∧
    fullPathFor "/repo".data (stripSlash ('/' :: "a.txt".data)) =
      joinPath "/repo".data "a.txt".data ∧
    fullPathFor "/repo".data (stripSlash ('/' :: '/' :: "etc/x".data)) =
      '/' :: "etc/x".data ∧
    ∃ res tr g1,
      commitFiles (some "tok") "/repo".data "main" (fun _ => .ok "data")
        faithfulOracle gExample ["//weird".data] "m" = (.ok res, tr, g1) := by
  refine ⟨C9_slash_path_handling.1 _,
    C9_slash_path_handling.2.1 "/repo".data "a.txt".data (by decide),
    C9_slash_path_handling.2.2.1 "/repo".data "etc/x".data,
    C9_slash_path_handling.2.2.2 "tok" (by decide) "/repo".data "main" "data"
      gExample ⟨"t0", [], "init"⟩ [] (by decide) (by decide)
      ["//weird".data] "m"⟩

end FileOps
